import Mathlib

/-
Verification development for the go-orderbook matching engine.

Shallow embedding of the Go sources:
  pkg/orderbook/orderbook.go   (Orderbook, CanMatch, CanFullyFill, MatchOrders,
                                AddOrder, CancelOrder, CancelOrders, cancelOrder,
                                ModifyOrder)
  the order/type definitions file (OrderType, Side, Order, NewOrder,
                                NewMarketOrder, Fill, ToGoodTillCancel, Orders,
                                OrderModify, TradeInfo, Trade, OrderEntry)
  pkg/orderbook/aliases.go     (Price int32, Quantity uint32, OrderId uint64)
  pkg/ds/rbmap/rbmap.go        (ordered map keyed by a comparator; Begin returns
                                the least key in comparator order, Last the
                                greatest, Get/Delete locate the key on which the
                                comparator reports equivalence)
  pkg/ds/list/linked_list.go   (doubly linked list backing a price level)

Modelling conventions:
  - Price (int32) is Int: the program only compares prices, never does
    arithmetic on them, so no wrap-around can occur.
  - Quantity (uint32) is Nat; the one subtraction the code performs
    (Order.Fill) is embedded with the explicit mod-2^32 semantics of uint32.
  - OrderId (uint64) is Nat: ids are only compared for equality.
  - The red-black tree is embedded as an association list kept sorted by the
    comparator: in-order traversal of the tree is exactly this list, Begin is
    its head, Last its last element.  For the two comparators the engine
    constructs (Ascending = <, Descending = >) comparator-equivalence of keys
    is integer equality, which Get/Delete use here.
  - Go maps (the order index) are association lists with unique keys.
  - The unbounded `for` loop of MatchOrders is embedded with fuel: `none`
    means the loop has not finished within the given number of outer
    iterations, so `∀ fuel, ... = none` states divergence.
  - Go error returns are embedded as Except/Option; each fmt.Errorf site in
    the source has its own constructor below.
-/

namespace OB

abbrev Price := Int
abbrev Quantity := Nat
abbrev OrderId := Nat

inductive OrderType where
  | Market
  | GoodTillCancel
  | GoodForDay
  | FillAndKill
  | FillOrKill
deriving DecidableEq, Repr

inductive Side where
  | Buy
  | Sell
deriving DecidableEq, Repr

/-- One constructor per fmt.Errorf site reached by the embedded operations. -/
inductive OBError where
  | orderAlreadyExists (id : OrderId)
  | invalidState
  | cannotConvert (id : OrderId)
  | cannotFillImmediately (id : OrderId)
  | overfill (id : OrderId)
  | orderDoesNotExist (id : OrderId)
deriving DecidableEq, Repr

structure Order where
  orderType : OrderType
  orderId : OrderId
  side : Side
  price : Price
  initialQuantity : Quantity
  remainingQuantity : Quantity
deriving DecidableEq, Repr

def NewOrder (orderType : OrderType) (orderId : OrderId) (side : Side)
    (price : Price) (quantity : Quantity) : Order :=
  { orderType := orderType
    orderId := orderId
    side := side
    price := price
    initialQuantity := quantity
    remainingQuantity := quantity }

def NewMarketOrder (orderId : OrderId) (side : Side) (quantity : Quantity) : Order :=
  NewOrder OrderType.Market orderId side 0 quantity

/-- The Go zero value of Order (OrderType(0) = Market, Side(0) = Buy). -/
def Order.zeroVal : Order :=
  { orderType := OrderType.Market, orderId := 0, side := Side.Buy
    price := 0, initialQuantity := 0, remainingQuantity := 0 }

def Order.IsFilled (o : Order) : Bool :=
  o.remainingQuantity == 0

/-- Order.Fill from the source: error (none) when quantity exceeds the
remaining quantity, leaving the order untouched; otherwise the uint32
subtraction remainingQuantity -= quantity, written with its explicit
mod-2^32 semantics. -/
def Order.Fill (o : Order) (quantity : Quantity) : Option Order :=
  if quantity > o.remainingQuantity then
    none
  else
    some { o with remainingQuantity := (o.remainingQuantity + 2 ^ 32 - quantity) % 2 ^ 32 }

/-- Order.ToGoodTillCancel: only a Market order converts; it takes the given
price and becomes GoodTillCancel. -/
def Order.ToGoodTillCancel (o : Order) (price : Price) : Option Order :=
  if o.orderType ≠ OrderType.Market then
    none
  else
    some { o with price := price, orderType := OrderType.GoodTillCancel }

/-- A price level: Orders wraps list.LinkedList[Order].  The observable
content of the linked list is its element sequence. -/
structure Orders where
  toList : List Order
deriving DecidableEq, Repr

/-- The Go zero value of Orders: an empty linked list. -/
def Orders.empty : Orders := ⟨[]⟩

def Orders.size (l : Orders) : Nat := l.toList.length

def Orders.IsEmpty (l : Orders) : Bool := l.toList.isEmpty

/-- LinkedList.Head returns (value, ok); the call sites ignore ok, so this
returns the Go zero value on an empty list exactly as the source does. -/
def Orders.HeadValue (l : Orders) : Order := l.toList.headD Order.zeroVal

/-- LinkedList.Head as an Option, for statements. -/
def Orders.Head (l : Orders) : Option Order := l.toList.head?

/-- LinkedList.DeleteHead: drop the first element (no-op on empty, the
returned bool is ignored at every call site). -/
def Orders.DeleteHead (l : Orders) : Orders := ⟨l.toList.tail⟩

/-- LinkedList.RemoveAt: out-of-range indices (the index is a Go int and may
be negative) leave the list unchanged and return false, which every call
site ignores. -/
def Orders.RemoveAt (l : Orders) (index : Int) : Orders :=
  if index < 0 ∨ (l.size : Int) ≤ index then l
  else ⟨l.toList.eraseIdx index.toNat⟩

/-- rbmap.SortFunc. -/
abbrev SortFunc := Price → Price → Bool

/-- rbmap.Ascending. -/
def Ascending : SortFunc := fun a b => decide (a < b)

/-- rbmap.Descending. -/
def Descending : SortFunc := fun a b => decide (a > b)

/-- rbmap.Map[Price, Orders], embedded as its in-order key/value sequence
(sorted by the comparator the map was built with). -/
abbrev PriceMap := List (Price × Orders)

/-- rbmap.Map.Insert: place the key at its comparator-sorted position; on an
existing key only the value is updated. -/
def mapInsert (less : SortFunc) (key : Price) (value : Orders) : PriceMap → PriceMap
  | [] => [(key, value)]
  | (k, v) :: rest =>
    if less key k then (key, value) :: (k, v) :: rest
    else if less k key then (k, v) :: mapInsert less key value rest
    else (k, value) :: rest

/-- rbmap.Map.Get: find the node whose key is comparator-equivalent to the
argument; for the Ascending/Descending integer comparators that is exact
equality. -/
def mapGet (key : Price) : PriceMap → Option Orders
  | [] => none
  | (k, v) :: rest => if k = key then some v else mapGet key rest

/-- rbmap.Map.Delete: remove the node with the (comparator-equivalent) key if
present. -/
def mapDelete (key : Price) : PriceMap → PriceMap
  | [] => []
  | (k, v) :: rest => if k = key then rest else (k, v) :: mapDelete key rest

/-- rbmap.Map.Empty. -/
def mapEmpty (m : PriceMap) : Bool := m.isEmpty

/-- rbmap.Map.Begin().Key()/Value(): the least node in comparator order is
the head of the sorted sequence.  Guarded by Empty() at every call site; the
default mirrors an arbitrary value never observed. -/
def mapBegin (m : PriceMap) : Price × Orders := m.headD (0, Orders.empty)

/-- rbmap.Map.Last(): the greatest node in comparator order. -/
def mapLast (m : PriceMap) : Price × Orders := (m.getLast?).getD (0, Orders.empty)

/-- OrderEntry from the source: the order value and its cached integer
position in the level queue (a Go int, so possibly -1). -/
structure OrderEntry where
  order : Order
  location : Int
deriving DecidableEq, Repr

/-- The order index map[OrderId]OrderEntry, as an association list with
unique keys. -/
abbrev OrderIndex := List (OrderId × OrderEntry)

def idxLookup (id : OrderId) : OrderIndex → Option OrderEntry
  | [] => none
  | (k, e) :: rest => if k = id then some e else idxLookup id rest

def idxInsert (id : OrderId) (e : OrderEntry) : OrderIndex → OrderIndex
  | [] => [(id, e)]
  | (k, e0) :: rest => if k = id then (id, e) :: rest else (k, e0) :: idxInsert id e rest

def idxErase (id : OrderId) : OrderIndex → OrderIndex
  | [] => []
  | (k, e0) :: rest => if k = id then rest else (k, e0) :: idxErase id rest

structure TradeInfo where
  orderId : OrderId
  price : Price
  quantity : Quantity
deriving DecidableEq, Repr

structure Trade where
  bidTrade : TradeInfo
  askTrade : TradeInfo
deriving DecidableEq, Repr

abbrev Trades := List Trade

/-- The engine state guarded by the mutex: the two comparator-ordered price
maps (bids built with Ascending, asks with Descending, as in NewOrderbook)
and the order index. -/
structure Orderbook where
  bids : PriceMap
  asks : PriceMap
  orders : OrderIndex
deriving DecidableEq, Repr

def NewOrderbook : Orderbook := { bids := [], asks := [], orders := [] }

def Orderbook.Size (b : Orderbook) : Nat := b.orders.length

/-- Orderbook.CanMatch from the source: for a Buy compare against the key of
asks.Begin(), for a Sell against the key of bids.Begin(). -/
def Orderbook.CanMatch (b : Orderbook) (side : Side) (price : Price) : Bool :=
  match side with
  | Side.Buy =>
    if mapEmpty b.asks then false
    else decide (price ≥ (mapBegin b.asks).1)
  | Side.Sell =>
    if mapEmpty b.bids then false
    else decide (price ≤ (mapBegin b.bids).1)

/-- Orderbook.CanFullyFill: the source is an unfinished stub that returns
false on every input (it returns false immediately when CanMatch fails, and
unconditionally returns false otherwise). -/
def Orderbook.CanFullyFill (b : Orderbook) (side : Side) (price : Price)
    (quantity : Quantity) : Bool :=
  if ¬ (b.CanMatch side price = true) then false
  else false

/-- One pass of the inner `for bids.Size() > 0 && asks.Size() > 0` loop of
Orderbook.MatchOrders, recursing on fuel.

`bidsq`/`asksq` are the local variables `bids`/`asks` of the source: Go
copies of the Orders struct values fetched from the map iterators.  Exactly
as in Go, mutations of these copies (DeleteHead, the fills of the Head
copies) are NOT written back to the maps; the loop only updates the engine
through delete(o.orders, id), o.bids.Delete(bidPrice) and
o.asks.Delete(askPrice).

The result carries the updated book, the final local copies, the trades, and
the error of an early `return trades, err` (none when the loop exits by its
condition).  The caller passes fuel bidsq.size + asksq.size + 1; every
iteration deletes the head of at least one copy (quantity = min of the two
remaining quantities fills at least one side), so the fuel is never
exhausted; `none` would signal exhaustion. -/
def matchLevels (bidPrice askPrice : Price) :
    Nat → Orderbook → Orders → Orders → Trades →
    Option (Orderbook × Orders × Orders × Trades × Option OBError)
  | 0, _, _, _, _ => none
  | Nat.succ fuel, b, bidsq, asksq, trades =>
    if bidsq.size > 0 ∧ asksq.size > 0 then
      let bid := bidsq.HeadValue
      let ask := asksq.HeadValue
      let quantity := min bid.remainingQuantity ask.remainingQuantity
      match bid.Fill quantity with
      | none => some (b, bidsq, asksq, trades, some (OBError.overfill bid.orderId))
      | some bid =>
        match ask.Fill quantity with
        | none => some (b, bidsq, asksq, trades, some (OBError.overfill ask.orderId))
        | some ask =>
          let step1 : Orders × Orderbook :=
            if bid.IsFilled then
              (bidsq.DeleteHead, { b with orders := idxErase bid.orderId b.orders })
            else (bidsq, b)
          let bidsq := step1.1
          let b := step1.2
          let step2 : Orders × Orderbook :=
            if ask.IsFilled then
              (asksq.DeleteHead, { b with orders := idxErase ask.orderId b.orders })
            else (asksq, b)
          let asksq := step2.1
          let b := step2.2
          let b := if bidsq.IsEmpty then { b with bids := mapDelete bidPrice b.bids } else b
          let b := if asksq.IsEmpty then { b with asks := mapDelete askPrice b.asks } else b
          let bidInfo : TradeInfo :=
            { orderId := bid.orderId, price := bid.price, quantity := quantity }
          let askInfo : TradeInfo :=
            { orderId := ask.orderId, price := ask.price, quantity := quantity }
          let trades := trades ++ [{ bidTrade := bidInfo, askTrade := askInfo }]
          let step3 : Orders × Orderbook :=
            if ¬ (bidsq.IsEmpty = true) then
              let bid2 := bidsq.HeadValue
              if bid2.orderType = OrderType.FillAndKill then
                (bidsq.DeleteHead, { b with orders := idxErase bid2.orderId b.orders })
              else (bidsq, b)
            else (bidsq, b)
          let bidsq := step3.1
          let b := step3.2
          let step4 : Orders × Orderbook :=
            if ¬ (asksq.IsEmpty = true) then
              let ask2 := asksq.HeadValue
              if ask2.orderType = OrderType.FillAndKill then
                (asksq.DeleteHead, { b with orders := idxErase ask2.orderId b.orders })
              else (asksq, b)
            else (asksq, b)
          let asksq := step4.1
          let b := step4.2
          matchLevels bidPrice askPrice fuel b bidsq asksq trades
    else
      some (b, bidsq, asksq, trades, none)

/-- The outer unbounded `for` loop of Orderbook.MatchOrders, recursing on
fuel: `none` means the loop has not finished within `fuel` outer iterations
(so `∀ fuel, matchLoop fuel b tr = none` states divergence).  On each pass it
breaks when a side map is empty or the Begin key of bids is below the Begin
key of asks, otherwise it runs the inner loop on copies of the two Begin
levels and re-observes the maps. -/
def matchLoop : Nat → Orderbook → Trades → Option (Trades × Option OBError × Orderbook)
  | 0, _, _ => none
  | Nat.succ fuel, b, trades =>
    if mapEmpty b.bids ∨ mapEmpty b.asks then
      some (trades, none, b)
    else
      let bidTop := mapBegin b.bids
      let askTop := mapBegin b.asks
      if bidTop.1 < askTop.1 then
        some (trades, none, b)
      else
        match matchLevels bidTop.1 askTop.1 (bidTop.2.size + askTop.2.size + 1)
            b bidTop.2 askTop.2 trades with
        | none => none
        | some (b2, _, _, trades2, some e) => some (trades2, some e, b2)
        | some (b2, _, _, trades2, none) => matchLoop fuel b2 trades2

/-- Orderbook.MatchOrders: run the crossing loop starting from nil trades. -/
def Orderbook.MatchOrders (b : Orderbook) (fuel : Nat) :
    Option (Trades × Option OBError × Orderbook) :=
  matchLoop fuel b []

/-- The admission part of Orderbook.AddOrder (everything before the final
`return o.MatchOrders()`): duplicate-id rejection, Market promotion via the
Last key of the opposite map, the FillAndKill marketability check, the empty
FillOrKill block, and the insertion sequence, which creates the price level
when absent and records the index entry at location Size()-1.  Note the
source never appends the order to the level queue.  On error the engine
state is unchanged (the order is passed by value and nothing was mutated
before the return). -/
def Orderbook.AddOrderAdmission (b : Orderbook) (order : Order) :
    Except OBError (Order × Orderbook) :=
  if (idxLookup order.orderId b.orders).isSome then
    Except.error (OBError.orderAlreadyExists order.orderId)
  else
    let conv : Except OBError Order :=
      if order.orderType = OrderType.Market then
        if order.side = Side.Buy ∧ mapEmpty b.asks = false then
          match order.ToGoodTillCancel (mapLast b.asks).1 with
          | some o2 => Except.ok o2
          | none => Except.error (OBError.cannotConvert order.orderId)
        else if order.side = Side.Sell ∧ mapEmpty b.bids = false then
          match order.ToGoodTillCancel (mapLast b.bids).1 with
          | some o2 => Except.ok o2
          | none => Except.error (OBError.cannotConvert order.orderId)
        else
          Except.error OBError.invalidState
      else
        Except.ok order
    match conv with
    | Except.error e => Except.error e
    | Except.ok order =>
      if order.orderType = OrderType.FillAndKill ∧ b.CanMatch order.side order.price = false then
        Except.error (OBError.cannotFillImmediately order.orderId)
      else
        -- `if order.OrderType() == FillOrKill {}` : the block is empty in the source.
        let ins : Orders × Orderbook :=
          if order.side = Side.Buy then
            let bids :=
              if (mapGet order.price b.bids).isNone then
                mapInsert Ascending order.price Orders.empty b.bids
              else b.bids
            ((mapGet order.price bids).getD Orders.empty, { b with bids := bids })
          else
            let asks :=
              if (mapGet order.price b.asks).isNone then
                mapInsert Descending order.price Orders.empty b.asks
              else b.asks
            ((mapGet order.price asks).getD Orders.empty, { b with asks := asks })
        let levelOrders := ins.1
        let b := ins.2
        let entry : OrderEntry := { order := order, location := (levelOrders.size : Int) - 1 }
        Except.ok (order, { b with orders := idxInsert order.orderId entry b.orders })

/-- Orderbook.AddOrder: admission followed by the crossing loop.  The result
mirrors the Go pair (Trades, error); `none` means MatchOrders did not
terminate within the fuel. -/
def Orderbook.AddOrder (b : Orderbook) (order : Order) (fuel : Nat) :
    Option (Trades × Option OBError × Orderbook) :=
  match b.AddOrderAdmission order with
  | Except.error e => some ([], some e, b)
  | Except.ok (_, b2) => b2.MatchOrders fuel

/-- The private Orderbook.cancelOrder: look up the entry, delete it from the
index, RemoveAt its cached location in the level fetched from the price map,
and delete the price key when that level reads empty.

Go value semantics, mirrored here: the Orders struct fetched by Get is a
copy, so RemoveAt acts on the copy and its field updates are never written
back to the map; the only map mutation is the key deletion.  (A mid-list
RemoveAt would additionally splice nodes shared with the stored list; no
state reached in this development has a level with two or more orders, so
that aliasing is never observable here.)  When the key is absent Get yields
the zero Orders value, RemoveAt is a no-op on it, IsEmpty is true and Delete
of the absent key is a no-op, exactly as in Go. -/
def Orderbook.cancelOrder (b : Orderbook) (orderId : OrderId) : Except OBError Orderbook :=
  match idxLookup orderId b.orders with
  | none => Except.error (OBError.orderDoesNotExist orderId)
  | some entry =>
    let order := entry.order
    let location := entry.location
    let b := { b with orders := idxErase orderId b.orders }
    if order.side = Side.Buy then
      let levelOrders := (mapGet order.price b.bids).getD Orders.empty
      let levelOrders := levelOrders.RemoveAt location
      if levelOrders.IsEmpty then
        Except.ok { b with bids := mapDelete order.price b.bids }
      else
        Except.ok b
    else
      let levelOrders := (mapGet order.price b.asks).getD Orders.empty
      let levelOrders := levelOrders.RemoveAt location
      if levelOrders.IsEmpty then
        Except.ok { b with asks := mapDelete order.price b.asks }
      else
        Except.ok b

/-- Orderbook.CancelOrder: lock + cancelOrder. -/
def Orderbook.CancelOrder (b : Orderbook) (orderId : OrderId) : Except OBError Orderbook :=
  b.cancelOrder orderId

/-- Orderbook.CancelOrders: cancel in order, stopping at the first error
without undoing prior cancels. -/
def Orderbook.CancelOrders (b : Orderbook) : List OrderId → Except OBError Orderbook
  | [] => Except.ok b
  | id :: rest =>
    match b.cancelOrder id with
    | Except.error e => Except.error e
    | Except.ok b2 => b2.CancelOrders rest

structure OrderModify where
  orderId : OrderId
  side : Side
  price : Price
  quantity : Quantity
deriving DecidableEq, Repr

def OrderModify.ToOrder (m : OrderModify) (orderType : OrderType) : Order :=
  { orderType := orderType
    orderId := m.orderId
    side := m.side
    price := m.price
    initialQuantity := m.quantity
    remainingQuantity := m.quantity }

/-- Orderbook.ModifyOrder: reject an unknown id, otherwise cancel (result
ignored by the source) and re-add with the original order type. -/
def Orderbook.ModifyOrder (b : Orderbook) (modify : OrderModify) (fuel : Nat) :
    Option (Trades × Option OBError × Orderbook) :=
  match idxLookup modify.orderId b.orders with
  | none => some ([], some (OBError.orderDoesNotExist modify.orderId), b)
  | some entry =>
    let b2 :=
      match b.CancelOrder modify.orderId with
      | Except.ok b2 => b2
      | Except.error _ => b
    b2.AddOrder (modify.ToOrder entry.order.orderType) fuel

/-- The key sequence of a price map is sorted by the comparator the map was
built with (the invariant the red-black tree maintains). -/
def sortedKeys (less : SortFunc) : PriceMap → Bool
  | [] => true
  | [_] => true
  | (k1, _) :: (k2, v2) :: rest => less k1 k2 && sortedKeys less ((k2, v2) :: rest)

/-- Iterated Order.Fill, as a caller issuing a sequence of Fill calls would:
a failed call (error) leaves the order unchanged. -/
def fillSeq : Order → List Quantity → Order
  | o, [] => o
  | o, q :: qs =>
    match o.Fill q with
    | some o2 => fillSeq o2 qs
    | none => fillSeq o qs

/- Concrete orders and the engine states they reach, used by the theorems
below.  Every book value is the one computed by the embedded operations (the
theorems assert the corresponding AddOrder equations). -/

def sellGTC1 : Order := NewOrder OrderType.GoodTillCancel 1 Side.Sell 100 10

def buyGTC2 : Order := NewOrder OrderType.GoodTillCancel 2 Side.Buy 100 4

def sellGTC2 : Order := NewOrder OrderType.GoodTillCancel 2 Side.Sell 110 10

def sellGTC5 : Order := NewOrder OrderType.GoodTillCancel 5 Side.Sell 100 5

def buy90 : Order := NewOrder OrderType.GoodTillCancel 3 Side.Buy 90 5

def buy105 : Order := NewOrder OrderType.GoodTillCancel 4 Side.Buy 105 5

def fokBuy : Order := NewOrder OrderType.FillOrKill 7 Side.Buy 100 5

/-- The book after addOrder(GTC, id=1, Sell, 100, 10) on the empty engine:
the ask price key 100 exists but its level queue is empty and the index
entry records location -1, because AddOrder never appends the order. -/
def bookA : Orderbook :=
  { bids := []
    asks := [(100, Orders.empty)]
    orders := [(1, { order := sellGTC1, location := -1 })] }

/-- bookA after addOrder(GTC, id=2, Sell, 110, 10): ask keys 110, 100 in the
descending comparator order of the ask map. -/
def bookB : Orderbook :=
  { bids := []
    asks := [(110, Orders.empty), (100, Orders.empty)]
    orders := [(1, { order := sellGTC1, location := -1 }),
               (2, { order := sellGTC2, location := -1 })] }

/-- The engine state the second AddOrder of scenario S1 hands to MatchOrders:
bid key 100 and ask key 100 cross while both level queues are empty. -/
def crossedBook : Orderbook :=
  { bids := [(100, Orders.empty)]
    asks := [(100, Orders.empty)]
    orders := [(1, { order := sellGTC1, location := -1 }),
               (2, { order := buyGTC2, location := -1 })] }

/-- The promoted market order of the C5 scenario: AddOrder rewrote its price
to 100 (the Last key of the descending ask map, i.e. the lowest ask) and its
type to GoodTillCancel. -/
def promotedBuy3 : Order :=
  { orderType := OrderType.GoodTillCancel, orderId := 3, side := Side.Buy
    price := 100, initialQuantity := 7, remainingQuantity := 7 }

/-- bookB after addOrder(Market, id=3, Buy, qty=7). -/
def bookC5 : Orderbook :=
  { bids := [(100, Orders.empty)]
    asks := [(110, Orders.empty), (100, Orders.empty)]
    orders := [(1, { order := sellGTC1, location := -1 }),
               (2, { order := sellGTC2, location := -1 }),
               (3, { order := promotedBuy3, location := -1 })] }

/-- The empty engine after addOrder(FillOrKill, id=7, Buy, 100, 5): the order
was admitted, not rejected. -/
def bookC6 : Orderbook :=
  { bids := [(100, Orders.empty)]
    asks := []
    orders := [(7, { order := fokBuy, location := -1 })] }

/-- bookB after addOrder(GTC, id=3, Buy, 90, 5). -/
def bookC7a : Orderbook :=
  { bids := [(90, Orders.empty)]
    asks := [(110, Orders.empty), (100, Orders.empty)]
    orders := [(1, { order := sellGTC1, location := -1 }),
               (2, { order := sellGTC2, location := -1 }),
               (3, { order := buy90, location := -1 })] }

/-- bookC7a after addOrder(GTC, id=4, Buy, 105, 5): best bid 105 and best ask
100 cross although every call returned. -/
def bookC7b : Orderbook :=
  { bids := [(90, Orders.empty), (105, Orders.empty)]
    asks := [(110, Orders.empty), (100, Orders.empty)]
    orders := [(1, { order := sellGTC1, location := -1 }),
               (2, { order := sellGTC2, location := -1 }),
               (3, { order := buy90, location := -1 }),
               (4, { order := buy105, location := -1 })] }

/-- bookA after addOrder(GTC, id=5, Sell, 100, 5): the order shares price key
100 with the resting order 1. -/
def bookC9 : Orderbook :=
  { bids := []
    asks := [(100, Orders.empty)]
    orders := [(1, { order := sellGTC1, location := -1 }),
               (5, { order := sellGTC5, location := -1 })] }

/-- bookC9 after cancelOrder(5): the level queue at 100 reads empty (orders
are never enqueued), so the cancel deletes the price key that order 1 still
needs. -/
def bookC9c : Orderbook :=
  { bids := []
    asks := []
    orders := [(1, { order := sellGTC1, location := -1 })] }

/-- A concrete order for the C10 witness. -/
def w10 : Order := NewOrder OrderType.GoodTillCancel 1 Side.Buy 100 10

/-- Helper: when both maps are non-empty, the first bid key does not lie
below the first ask key, and both first levels are empty queues, one pass of
the outer MatchOrders loop neither breaks nor changes the state, so the loop
never terminates: the fuel runs out at every fuel value. -/
theorem matchLoop_stuck (bp ap : Price) (bs as2 : PriceMap) (idx : OrderIndex)
    (h : ¬ bp < ap) (fuel : Nat) (trades : Trades) :
    matchLoop fuel
      { bids := (bp, Orders.empty) :: bs, asks := (ap, Orders.empty) :: as2, orders := idx }
      trades = none := by
  induction fuel with
  | zero => rfl
  | succ n ih =>
    unfold matchLoop
    simp only [mapEmpty, List.isEmpty, mapBegin, List.headD, Orders.empty, Orders.size,
      List.length_nil, matchLevels]
    simp [h, matchLevels, Orders.size, Orders.empty]
    exact ih

/-- Claim C1 (code bug): addOrder(GoodTillCancel, id=1, Sell, price=100,
qty=10) on the empty engine returns with no trades, but the level queue at
ask price 100 is left EMPTY — AddOrder creates the price level and records
the index entry at location Size()-1 = -1 without ever appending the order —
contradicting the claim that the order is appended to the back of the level
queue and that the queue is non-empty. -/
theorem c1_addOrder_leaves_level_queue_empty :
    NewOrderbook.AddOrder sellGTC1 5 = some ([], none, bookA) ∧
    mapGet 100 bookA.asks = some Orders.empty ∧
    idxLookup 1 bookA.orders = some { order := sellGTC1, location := -1 } ∧
    Orders.empty.size = 0 := by decide

/-- Claim C2 (code bug): MatchOrders does NOT terminate on the state in which
bid price key 100 and ask price key 100 cross while both level queues are
empty (the state scenario S1 reaches): for every fuel bound the outer loop
is still running, since the crossing test does not break and the inner loop
never runs on the empty queues, so no state changes. -/
theorem c2_matchOrders_diverges_on_crossed_empty_levels (fuel : Nat) :
    crossedBook.MatchOrders fuel = none :=
  matchLoop_stuck 100 100 [] [] crossedBook.orders (by decide) fuel []

/-- Claim C3 (code bug): the first call of scenario S1 behaves as claimed
(no trades, size 1), but the second call addOrder(GTC, id=2, Buy, 100, 4)
never returns: after admission the book is crossedBook and MatchOrders
diverges at every fuel bound, so the claimed trade, sizes and levels are
never produced. -/
theorem c3_scenario_s1_second_add_never_returns :
    NewOrderbook.AddOrder sellGTC1 5 = some ([], none, bookA) ∧
    bookA.Size = 1 ∧
    bookA.AddOrderAdmission buyGTC2 = Except.ok (buyGTC2, crossedBook) ∧
    (∀ fuel : Nat, bookA.AddOrder buyGTC2 fuel = none) := by
  refine ⟨by decide, by decide, by rfl, fun fuel => ?_⟩
  have hAdmEq : bookA.AddOrderAdmission buyGTC2 = Except.ok (buyGTC2, crossedBook) := by rfl
  unfold Orderbook.AddOrder
  rw [hAdmEq]
  exact matchLoop_stuck 100 100 [] [] crossedBook.orders (by decide) fuel []

/-- Helper: in a map sorted by the Descending comparator the head key bounds
every key from above (the Begin node of the descending ask map is the
numerically HIGHEST ask). -/
theorem sorted_desc_head_ge (k : Price) (v : Orders) (rest : PriceMap)
    (h : sortedKeys Descending ((k, v) :: rest) = true) :
    ∀ p ∈ ((k, v) :: rest).map Prod.fst, p ≤ k := by
  induction rest generalizing k v with
  | nil =>
    intro p hp
    simp only [List.map, List.mem_singleton] at hp
    simp [hp]
  | cons kv2 rest2 ih =>
    obtain ⟨k2, v2⟩ := kv2
    have h2 : Descending k k2 = true ∧ sortedKeys Descending ((k2, v2) :: rest2) = true := by
      simpa [sortedKeys, Bool.and_eq_true] using h
    have hk2 : k2 < k := by
      have := h2.1
      simpa [Descending] using this
    intro p hp
    simp only [List.map_cons, List.mem_cons] at hp
    rcases hp with hp | hp
    · simp [hp]
    · have hple : p ≤ k2 := by
        have := ih k2 v2 h2.2 p
        simp only [List.map_cons] at this
        exact this (List.mem_cons.mpr hp)
      exact le_trans hple (le_of_lt hk2)

/-- Helper: in a map sorted by the Ascending comparator the head key bounds
every key from below (the Begin node of the ascending bid map is the
numerically LOWEST bid). -/
theorem sorted_asc_head_le (k : Price) (v : Orders) (rest : PriceMap)
    (h : sortedKeys Ascending ((k, v) :: rest) = true) :
    ∀ p ∈ ((k, v) :: rest).map Prod.fst, k ≤ p := by
  induction rest generalizing k v with
  | nil =>
    intro p hp
    simp only [List.map, List.mem_singleton] at hp
    simp [hp]
  | cons kv2 rest2 ih =>
    obtain ⟨k2, v2⟩ := kv2
    have h2 : Ascending k k2 = true ∧ sortedKeys Ascending ((k2, v2) :: rest2) = true := by
      simpa [sortedKeys, Bool.and_eq_true] using h
    have hk2 : k < k2 := by
      have := h2.1
      simpa [Ascending] using this
    intro p hp
    simp only [List.map_cons, List.mem_cons] at hp
    rcases hp with hp | hp
    · simp [hp]
    · have hple : k2 ≤ p := by
        have := ih k2 v2 h2.2 p
        simp only [List.map_cons] at this
        exact this (List.mem_cons.mpr hp)
      exact le_trans (le_of_lt hk2) hple

/-- Claim C4 (corrected), counterexample: in the reachable state with ask
price keys 110 and 100 (two resting sells), CanMatch(Buy, 105) returns
false, although the asks are non-empty and 105 is at least the LOWEST
resting ask 100 — the claimed iff (price at least the lowest ask) is false
for the code, which compares against the Begin key of the descending ask
map, the HIGHEST ask. -/
theorem c4_canMatch_counterexample :
    NewOrderbook.AddOrder sellGTC1 5 = some ([], none, bookA) ∧
    bookA.AddOrder sellGTC2 5 = some ([], none, bookB) ∧
    bookB.CanMatch Side.Buy 105 = false ∧
    bookB.asks ≠ [] ∧
    (bookB.asks.map Prod.fst).min? = some 100 ∧
    ((105 : Price) ≥ 100) := by decide

/-- Claim C4 (amended): canMatch(side, price) is true iff the opposite map
is non-empty and the price is at least as favorable as the BEGIN key of the
opposite comparator-ordered map — for a Buy at least the HIGHEST resting ask
(equivalently at least every ask key), for a Sell at most the LOWEST resting
bid (equivalently at most every bid key). -/
theorem c4_canMatch_amended (b : Orderbook) (price : Price) :
    (sortedKeys Descending b.asks = true →
      (b.CanMatch Side.Buy price = true ↔
        b.asks ≠ [] ∧ ∀ k ∈ b.asks.map Prod.fst, k ≤ price)) ∧
    (sortedKeys Ascending b.bids = true →
      (b.CanMatch Side.Sell price = true ↔
        b.bids ≠ [] ∧ ∀ k ∈ b.bids.map Prod.fst, price ≤ k)) := by
  constructor
  · intro hs
    cases hasks : b.asks with
    | nil => simp [Orderbook.CanMatch, mapEmpty, hasks]
    | cons kv rest =>
      obtain ⟨k, v⟩ := kv
      rw [hasks] at hs
      have hcm : b.CanMatch Side.Buy price = decide (price ≥ k) := by
        simp [Orderbook.CanMatch, mapEmpty, hasks, mapBegin]
      rw [hcm]
      constructor
      · intro hd
        have hk : k ≤ price := by simpa using hd
        refine ⟨by simp, ?_⟩
        intro p hp
        exact le_trans (sorted_desc_head_ge k v rest hs p hp) hk
      · intro hall
        have hk : k ≤ price := hall.2 k (by simp)
        simpa using hk
  · intro hs
    cases hbids : b.bids with
    | nil => simp [Orderbook.CanMatch, mapEmpty, hbids]
    | cons kv rest =>
      obtain ⟨k, v⟩ := kv
      rw [hbids] at hs
      have hcm : b.CanMatch Side.Sell price = decide (price ≤ k) := by
        simp [Orderbook.CanMatch, mapEmpty, hbids, mapBegin]
      rw [hcm]
      constructor
      · intro hd
        have hk : price ≤ k := by simpa using hd
        refine ⟨by simp, ?_⟩
        intro p hp
        exact le_trans hk (sorted_asc_head_le k v rest hs p hp)
      · intro hall
        have hk : price ≤ k := hall.2 k (by simp)
        simpa using hk

/-- Witness for the amended C4 at a concrete reachable book: a buy at 115
clears every resting ask key of bookB, so canMatch reports true. -/
theorem c4_canMatch_amended_witness :
    bookB.CanMatch Side.Buy 115 = true :=
  ((c4_canMatch_amended bookB 115).1 (by decide)).mpr (by decide)

/-- Claim C5 (code bug): a Market Buy into the book with ask keys 110 and
100 is promoted using the Last key of the descending ask map, which is the
LOWEST ask 100 — not the highest/worst ask 110 the claim (and the source
comment about the max/worst price) describes.  The promoted order then rests
at 100 without producing any trade, while an order promoted to 110 would be
marketable at every resting ask. -/
theorem c5_market_promoted_to_lowest_ask :
    bookB.AddOrder (NewMarketOrder 3 Side.Buy 7) 5 = some ([], none, bookC5) ∧
    (idxLookup 3 bookC5.orders).map (fun e => (e.order.price, e.order.orderType))
      = some ((100 : Price), OrderType.GoodTillCancel) ∧
    (bookB.asks.map Prod.fst).max? = some 110 ∧
    mapGet 110 bookC5.asks = some Orders.empty := by decide

/-- Claim C6 (code bug): a FillOrKill order that cannot be filled at all (the
empty book has no liquidity) is nevertheless admitted — AddOrder returns no
error and size() becomes 1 — because the FillOrKill branch in AddOrder is an
empty block; moreover the CanFullyFill stub returns false on EVERY input
instead of summing opposite-side liquidity. -/
theorem c6_fok_admitted_not_rejected :
    (NewOrderbook.AddOrder fokBuy 5 = some ([], none, bookC6) ∧ bookC6.Size = 1) ∧
    (∀ (b : Orderbook) (s : Side) (p : Price) (q : Quantity), b.CanFullyFill s p q = false) := by
  refine ⟨⟨by decide, by decide⟩, ?_⟩
  intro b s p q
  unfold Orderbook.CanFullyFill
  split
  · rfl
  · rfl

/-- Claim C7 (code bug): after the four calls add(GTC,1,Sell,100),
add(GTC,2,Sell,110), add(GTC,3,Buy,90), add(GTC,4,Buy,105) — each of which
returns normally with no trades — both sides are non-empty and the highest
resting bid 105 is NOT below the lowest resting ask 100: the top of book
stays crossed, because MatchOrders only compares the Begin keys of the two
maps (lowest bid 90 against highest ask 110 under the swapped comparators). -/
theorem c7_top_of_book_crossed_after_addOrder_returns :
    NewOrderbook.AddOrder sellGTC1 5 = some ([], none, bookA) ∧
    bookA.AddOrder sellGTC2 5 = some ([], none, bookB) ∧
    bookB.AddOrder buy90 5 = some ([], none, bookC7a) ∧
    bookC7a.AddOrder buy105 5 = some ([], none, bookC7b) ∧
    (bookC7b.bids.map Prod.fst).max? = some 105 ∧
    (bookC7b.asks.map Prod.fst).min? = some 100 ∧
    bookC7b.bids ≠ [] ∧ bookC7b.asks ≠ [] ∧ ¬ ((105 : Price) < 100) := by
  refine ⟨by decide, by decide, by decide, by decide, by decide, by decide, by decide,
    by decide, by decide⟩

/-- Claim C8 (code bug): immediately after addOrder(GTC, id=1, Sell, 100,
10) returns, the ask map holds the price key 100 whose level queue is EMPTY,
violating the claimed invariant that every present price key has a non-empty
level queue. -/
theorem c8_price_key_with_empty_level :
    NewOrderbook.AddOrder sellGTC1 5 = some ([], none, bookA) ∧
    bookA.asks.map Prod.fst = [100] ∧
    (mapGet 100 bookA.asks).map Orders.IsEmpty = some true := by decide

/-- Claim C9 (code bug): starting from bookA (order 1 resting at ask 100),
the order (GTC, id=5, Sell, 100, 5) does not match on entry (no trades), yet
add followed by cancel of id 5 does NOT restore the books: the cancel finds
the shared level queue at 100 empty (orders are never enqueued) and deletes
the price key, leaving the ask book empty while order 1 is still indexed.
size() is restored; the books are not. -/
theorem c9_add_cancel_does_not_restore_books :
    bookA.AddOrder sellGTC5 5 = some ([], none, bookC9) ∧
    bookC9.CancelOrder 5 = Except.ok bookC9c ∧
    bookC9c.Size = bookA.Size ∧
    bookC9c.bids = bookA.bids ∧
    bookC9c.asks = [] ∧
    bookA.asks = [(100, Orders.empty)] ∧
    ¬ bookC9c.asks = bookA.asks := by
  refine ⟨by decide, by rfl, by decide, by decide, by decide, by decide, by decide⟩

/-- Helper: when the fill quantity does not exceed the remaining quantity
and the remaining quantity is a valid uint32, the mod-2^32 subtraction of
Order.Fill equals the exact subtraction: it never wraps. -/
theorem fill_sub_no_wrap (r q : Nat) (hr : r < 2 ^ 32) (hq : q ≤ r) :
    (r + 2 ^ 32 - q) % 2 ^ 32 = r - q := by omega

/-- Helper: any sequence of Fill calls preserves remaining ≤ initial, keeps
remaining a valid uint32, and never changes the initial quantity. -/
theorem fillSeq_invariant (qs : List Quantity) (o : Order)
    (h1 : o.remainingQuantity ≤ o.initialQuantity)
    (h2 : o.remainingQuantity < 2 ^ 32) :
    (fillSeq o qs).remainingQuantity ≤ (fillSeq o qs).initialQuantity ∧
    (fillSeq o qs).remainingQuantity < 2 ^ 32 ∧
    (fillSeq o qs).initialQuantity = o.initialQuantity := by
  induction qs generalizing o with
  | nil => exact ⟨h1, h2, rfl⟩
  | cons q qs ih =>
    by_cases hgt : q > o.remainingQuantity
    · have hfill : o.Fill q = none := by
        unfold Order.Fill
        simp [hgt]
      have hstep : fillSeq o (q :: qs) = fillSeq o qs := by
        simp only [fillSeq, hfill]
      rw [hstep]
      exact ih o h1 h2
    · push_neg at hgt
      have hc : ¬ (q > o.remainingQuantity) := Nat.not_lt.mpr hgt
      have hfill : o.Fill q
          = some { o with remainingQuantity := o.remainingQuantity - q } := by
        unfold Order.Fill
        rw [if_neg hc, fill_sub_no_wrap o.remainingQuantity q h2 hgt]
      have hstep : fillSeq o (q :: qs)
          = fillSeq { o with remainingQuantity := o.remainingQuantity - q } qs := by
        simp only [fillSeq, hfill]
      rw [hstep]
      refine ih _ ?_ ?_
      · exact le_trans (Nat.sub_le _ _) h1
      · exact lt_of_le_of_lt (Nat.sub_le _ _) h2

/-- Claim C10 (confirmed): Fill(q) with q greater than the remaining
quantity returns an error and (the order being returned untouched) leaves
remainingQuantity unchanged; otherwise it decreases remainingQuantity by
exactly q, and the uint32 subtraction coincides with the exact subtraction
(no wrap).  An order built by NewOrder starts with remaining = initial, and
after every sequence of Fill calls remaining ≤ initial still holds. -/
theorem c10_fill_safe (o : Order) (q : Quantity)
    (t : OrderType) (id : OrderId) (s : Side) (p : Price) (qty : Quantity)
    (qs : List Quantity)
    (hrem : o.remainingQuantity < 2 ^ 32) :
    (q > o.remainingQuantity → o.Fill q = none) ∧
    (q ≤ o.remainingQuantity →
      o.Fill q = some { o with remainingQuantity := o.remainingQuantity - q } ∧
      (o.remainingQuantity + 2 ^ 32 - q) % 2 ^ 32 = o.remainingQuantity - q) ∧
    (NewOrder t id s p qty).remainingQuantity = (NewOrder t id s p qty).initialQuantity ∧
    (qty < 2 ^ 32 →
      (fillSeq (NewOrder t id s p qty) qs).remainingQuantity
        ≤ (fillSeq (NewOrder t id s p qty) qs).initialQuantity) := by
  refine ⟨?_, ?_, rfl, ?_⟩
  · intro hgt
    unfold Order.Fill
    simp [hgt]
  · intro hle
    have hw := fill_sub_no_wrap o.remainingQuantity q hrem hle
    have hc : ¬ (q > o.remainingQuantity) := Nat.not_lt.mpr hle
    constructor
    · unfold Order.Fill
      rw [if_neg hc, hw]
    · exact hw
  · intro hqty
    exact (fillSeq_invariant qs (NewOrder t id s p qty) (le_refl _) hqty).1

/-- Witness for C10 at a concrete order (GTC, id 1, Buy, 100, qty 10),
q = 3 and the fill sequence [4, 4]. -/
theorem c10_fill_safe_witness :
    ((3 : Quantity) > w10.remainingQuantity → w10.Fill 3 = none) ∧
    ((3 : Quantity) ≤ w10.remainingQuantity →
      w10.Fill 3 = some { w10 with remainingQuantity := w10.remainingQuantity - 3 } ∧
      (w10.remainingQuantity + 2 ^ 32 - 3) % 2 ^ 32 = w10.remainingQuantity - 3) ∧
    (NewOrder OrderType.GoodTillCancel 1 Side.Buy 100 10).remainingQuantity
      = (NewOrder OrderType.GoodTillCancel 1 Side.Buy 100 10).initialQuantity ∧
    ((10 : Quantity) < 2 ^ 32 →
      (fillSeq (NewOrder OrderType.GoodTillCancel 1 Side.Buy 100 10) [4, 4]).remainingQuantity
        ≤ (fillSeq (NewOrder OrderType.GoodTillCancel 1 Side.Buy 100 10) [4, 4]).initialQuantity) :=
  c10_fill_safe w10 3 OrderType.GoodTillCancel 1 Side.Buy 100 10 [4, 4] (by decide)

end OB
